import Mathlib

/-!
Shallow embedding of the Approximate Bijective Correspondence (ABC) loss
helpers from `isolating_factors/mnist.ipynb`: the pairwise distance
matrices, the metric-dispatching scaled similarity, and the soft
nearest-neighbor cycle-consistency loss.

Matrices are lists of rows over `ℝ`.  TensorFlow exceptions raised while
tracing (Python `ValueError` / `NameError`) are modelled with
`Except String`; real-number arithmetic stands in for float arithmetic.
-/

noncomputable section

/-- One row of `tf.reduce_sum(tf.square(embs), 1)`: the squared L2 norm. -/
def sqNorm (v : List ℝ) : ℝ := (v.map fun x => x ^ 2).sum

/-- One entry of `tf.matmul(embs1, embs2, transpose_b=True)`: a dot product. -/
def dot (v w : List ℝ) : ℝ := (List.zipWith (fun a b => a * b) v w).sum

/-- `pairwise_l2_distance` from the notebook: entry `(i, j)` is
`max(‖a_i‖² + ‖b_j‖² − 2⟨a_i, b_j⟩, 0)` — the squared Euclidean distance,
clamped at zero by `tf.maximum(…, 0.0)`. -/
def pairwise_l2_distance (embs1 embs2 : List (List ℝ)) : List (List ℝ) :=
  embs1.map fun x => embs2.map fun y => max (sqNorm x + sqNorm y - 2 * dot x y) 0

/-- `pairwise_l1_distance` from the notebook: entry `(i, j)` is
`tf.reduce_sum(tf.abs(a_i − b_j))`. -/
def pairwise_l1_distance (embs1 embs2 : List (List ℝ)) : List (List ℝ) :=
  embs1.map fun x => embs2.map fun y => (List.zipWith (fun a b => |a - b|) x y).sum

/-- `tf.reduce_max` over the last axis for one (nonempty) row. -/
def reduceMax (l : List ℝ) : ℝ :=
  match l with
  | [] => 0
  | h :: t => t.foldl max h

/-- `pairwise_linf_distance` from the notebook: entry `(i, j)` is
`tf.reduce_max(tf.abs(a_i − b_j))`. -/
def pairwise_linf_distance (embs1 embs2 : List (List ℝ)) : List (List ℝ) :=
  embs1.map fun x => embs2.map fun y => reduceMax (List.zipWith (fun a b => |a - b|) x y)

/-- `tf.linalg.normalize(embs, ord=2, axis=-1)` on one row: divide by the
L2 norm. -/
def l2normalize (v : List ℝ) : List ℝ := v.map fun x => x / Real.sqrt (sqNorm v)

/-- `tf.matmul(A, B, transpose_b=True)`: entry `(i, j)` is `⟨A_i, B_j⟩`. -/
def matmulT (A B : List (List ℝ)) : List (List ℝ) :=
  A.map fun x => B.map fun y => dot x y

/-- Scalar multiple of a matrix (`-1.0 * dist` in the notebook). -/
def matSMul (c : ℝ) (M : List (List ℝ)) : List (List ℝ) :=
  M.map fun r => r.map fun x => c * x

/-- Entrywise division by a scalar (`similarity /= temperature`). -/
def matDivScalar (M : List (List ℝ)) (t : ℝ) : List (List ℝ) :=
  M.map fun r => r.map fun x => x / t

/-- `get_scaled_similarity` from the notebook.  The `l2` branch evaluates
`tf.sqrt(pairwise_l2_distance(embs1, embs2) + eps)`, but the global name
`eps` is defined nowhere in the notebook, so selecting `l2` raises
`NameError` when the branch is traced; that failure is modelled as an
`Except.error`.  The final branch models the notebook's
`raise ValueError` for an unknown similarity type, whose message embeds
the offending string.  No branch inspects the temperature: every
successful branch simply divides by it. -/
def get_scaled_similarity (embs1 embs2 : List (List ℝ)) (similarity_type : String)
    (temperature : ℝ) : Except String (List (List ℝ)) :=
  if similarity_type = "l2sq" then
    Except.ok (matDivScalar (matSMul (-1) (pairwise_l2_distance embs1 embs2)) temperature)
  else if similarity_type = "l2" then
    Except.error "NameError: name eps is not defined"
  else if similarity_type = "l1" then
    Except.ok (matDivScalar (matSMul (-1) (pairwise_l1_distance embs1 embs2)) temperature)
  else if similarity_type = "linf" then
    Except.ok (matDivScalar (matSMul (-1) (pairwise_linf_distance embs1 embs2)) temperature)
  else if similarity_type = "cosine" then
    Except.ok (matDivScalar
      (matmulT (embs1.map l2normalize) (embs2.map l2normalize)) temperature)
  else
    Except.error ("Unknown similarity type: " ++ similarity_type)

/-- `tf.nn.softmax(…, axis=1)` on one row. -/
def softmaxRow (r : List ℝ) : List ℝ :=
  r.map fun x => Real.exp x / (r.map Real.exp).sum

/-- `tf.nn.softmax(sim_12, axis=1)`: softmax of every row. -/
def softmaxRows (M : List (List ℝ)) : List (List ℝ) := M.map softmaxRow

/-- `tf.matmul(A, B)` (no transpose): entry `(i, k)` is `Σ_j A_ij · B_jk`. -/
def matmul (A B : List (List ℝ)) : List (List ℝ) :=
  A.map fun ar => (List.range (B.headD []).length).map fun k =>
    ((List.range B.length).map fun j => ar.getD j 0 * (B.getD j []).getD k 0).sum

/-- `tf.keras.losses.sparse_categorical_crossentropy(label, logits,
from_logits=True)` for one row: `log Σ_j exp(logits_j) − logits_label`
(the log-sum-exp form of `−log softmax(logits)_label`). -/
def sparse_categorical_crossentropy (label : ℕ) (logits : List ℝ) : ℝ :=
  Real.log ((logits.map Real.exp).sum) - logits.getD label 0

/-- `tf.reduce_mean` of a vector. -/
def reduce_mean (l : List ℝ) : ℝ := l.sum / l.length

/-- `align_pair_of_sequences` from the notebook: scaled similarity
`sim_12`, row softmax, soft nearest neighbors `nn_embs`, scaled
similarity `sim_21`, then the mean sparse categorical cross-entropy of
`sim_21`'s rows against the labels `tf.range(ss1)`. -/
def align_pair_of_sequences (embs1 embs2 : List (List ℝ)) (similarity_type : String)
    (temperature : ℝ) : Except String ℝ :=
  Except.bind (get_scaled_similarity embs1 embs2 similarity_type temperature)
    fun sim_12 =>
  Except.bind (get_scaled_similarity (matmul (softmaxRows sim_12) embs2) embs1
      similarity_type temperature)
    fun sim_21 =>
  Except.ok (reduce_mean ((List.range embs1.length).map fun i =>
    sparse_categorical_crossentropy i (sim_21.getD i [])))

/-- Modelled from the spec's words (reference computation of claim C1):
the categorical cross-entropy between a row of logits and a target label
is the negative logarithm of the softmax probability at that label. -/
def ceLogitsSpec (label : ℕ) (logits : List ℝ) : ℝ :=
  - Real.log ((softmaxRow logits).getD label 0)

/-- Modelled from the spec's words (reference computation of claim C1):
form `S12`, row-softmax it to `P`, form `NN = P · E2`, form `S21`, and
return the mean over `i` of the categorical cross-entropy between
`S21`'s row `i` taken as logits and the target label `i`. -/
def alignPairSpec (E1 E2 : List (List ℝ)) (metric : String) (t : ℝ) : Except String ℝ :=
  Except.bind (get_scaled_similarity E1 E2 metric t)
    fun S12 =>
  Except.bind (get_scaled_similarity (matmul (softmaxRows S12) E2) E1 metric t)
    fun S21 =>
  Except.ok (reduce_mean ((List.range E1.length).map fun i =>
    ceLogitsSpec i (S21.getD i [])))

/-- Entry `(i, j)` of a matrix, with out-of-range defaults. -/
def entry (M : List (List ℝ)) (i j : ℕ) : ℝ := (M.getD i []).getD j 0

lemma ebind_ok {α β : Type} (a : α) (f : α → Except String β) :
    Except.bind (Except.ok a) f = f a := rfl

lemma ebind_error {α β : Type} (e : String) (f : α → Except String β) :
    Except.bind (Except.error e) f = Except.error e := rfl

/-! ### Generic list helpers -/

lemma getD_of_lt {α : Type} (l : List α) (i : ℕ) (d : α) (h : i < l.length) :
    l.getD i d = l.get ⟨i, h⟩ := by
  simp [List.getElem?_eq_getElem h]

lemma getD_of_le {α : Type} (l : List α) (i : ℕ) (d : α) (h : l.length ≤ i) :
    l.getD i d = d := by
  simp [List.getElem?_eq_none h]

lemma map_getD_of_lt {α β : Type} (l : List α) (f : α → β) (i : ℕ) (d : β)
    (h : i < l.length) : (l.map f).getD i d = f (l.get ⟨i, h⟩) := by
  rw [getD_of_lt _ i d (by simpa using h)]
  simp

lemma sum_map_div (l : List (List ℝ)) (f : List ℝ → ℝ) (c : ℝ) :
    (l.map fun x => f x / c).sum = (l.map f).sum / c := by
  induction l with
  | nil => simp
  | cons a l ih => simp [ih, add_div]

lemma sum_map_div' (l : List ℝ) (f : ℝ → ℝ) (c : ℝ) :
    (l.map fun x => f x / c).sum = (l.map f).sum / c := by
  induction l with
  | nil => simp
  | cons a l ih => simp [ih, add_div]

/-! ### Structure of the similarity branches -/

lemma scaled_rows (c t : ℝ) (K : List ℝ → List ℝ → ℝ) (A B : List (List ℝ)) :
    matDivScalar (matSMul c (A.map fun x => B.map fun y => K x y)) t
      = A.map fun x => B.map fun y => c * K x y / t := by
  simp [matDivScalar, matSMul, List.map_map, Function.comp_def]

lemma cosine_rows (t : ℝ) (A B : List (List ℝ)) :
    matDivScalar (matmulT (A.map l2normalize) (B.map l2normalize)) t
      = A.map fun x => B.map fun y => dot (l2normalize x) (l2normalize y) / t := by
  simp [matDivScalar, matmulT, List.map_map, Function.comp_def]

/-- Every matrix returned by `get_scaled_similarity` has one row per row of
`embs1` and one column per row of `embs2`. -/
lemma gss_shape {A B : List (List ℝ)} {mt : String} {t : ℝ} {S : List (List ℝ)}
    (h : get_scaled_similarity A B mt t = Except.ok S) :
    S.length = A.length ∧ ∀ r ∈ S, r.length = B.length := by
  unfold get_scaled_similarity at h
  split_ifs at h <;>
    cases h <;>
    constructor <;>
    simp [matDivScalar, matSMul, matmulT, pairwise_l2_distance, pairwise_l1_distance,
      pairwise_linf_distance, List.map_map]

/-! ### Symmetry of the pairwise distance kernels -/

lemma pairwise_entry_symm (K : List ℝ → List ℝ → ℝ) (hK : ∀ x y, K x y = K y x)
    (A : List (List ℝ)) (i j : ℕ) :
    entry (A.map fun x => A.map fun y => K x y) i j
      = entry (A.map fun x => A.map fun y => K x y) j i := by
  unfold entry
  by_cases hi : i < A.length <;> by_cases hj : j < A.length
  · rw [map_getD_of_lt A _ i [] hi, map_getD_of_lt A _ j [] hj,
      map_getD_of_lt A _ j 0 hj, map_getD_of_lt A _ i 0 hi]
    exact hK _ _
  · rw [map_getD_of_lt A _ i [] hi,
      getD_of_le _ j [] (by simpa using Nat.le_of_not_lt hj),
      getD_of_le _ j 0 (by simpa using Nat.le_of_not_lt hj)]
    simp
  · rw [map_getD_of_lt A _ j [] hj,
      getD_of_le _ i [] (by simpa using Nat.le_of_not_lt hi),
      getD_of_le _ i 0 (by simpa using Nat.le_of_not_lt hi)]
    simp
  · rw [getD_of_le _ i [] (by simpa using Nat.le_of_not_lt hi),
      getD_of_le _ j [] (by simpa using Nat.le_of_not_lt hj)]
    simp

lemma dot_comm (x y : List ℝ) : dot x y = dot y x := by
  unfold dot
  rw [List.zipWith_comm_of_comm _ mul_comm]

lemma absdiff_comm (x y : List ℝ) :
    List.zipWith (fun a b => |a - b|) x y = List.zipWith (fun a b => |a - b|) y x := by
  rw [List.zipWith_comm_of_comm _ fun a b => abs_sub_comm a b]

/-- Claim C8: for every embedding matrix `A`, the pairwise distance
matrices computed with source equal to target are symmetric under the
squared-Euclidean/Euclidean (`pairwise_l2_distance`), Manhattan
(`pairwise_l1_distance`) and Chebyshev (`pairwise_linf_distance`)
kernels: entry `(i, j)` equals entry `(j, i)` for all `i`, `j`. -/
theorem pairwise_distance_matrices_symmetric (A : List (List ℝ)) (i j : ℕ) :
    entry (pairwise_l2_distance A A) i j = entry (pairwise_l2_distance A A) j i ∧
    entry (pairwise_l1_distance A A) i j = entry (pairwise_l1_distance A A) j i ∧
    entry (pairwise_linf_distance A A) i j = entry (pairwise_linf_distance A A) j i := by
  refine ⟨?_, ?_, ?_⟩
  · exact pairwise_entry_symm _ (fun x y => by rw [dot_comm, add_comm (sqNorm x)]) A i j
  · exact pairwise_entry_symm _ (fun x y => by rw [absdiff_comm]) A i j
  · exact pairwise_entry_symm _ (fun x y => by rw [absdiff_comm]) A i j

/-! ### Metric dispatch and configuration errors -/

/-- Claim C4: for every metric name outside the five recognized ones, the
similarity computation fails with an error naming the unrecognized metric
string, and neither a similarity matrix nor a loss is produced. -/
theorem unknown_metric_errors (A B : List (List ℝ)) (t : ℝ) (mt : String)
    (h : mt ∉ (["l2sq", "l2", "l1", "linf", "cosine"] : List String)) :
    get_scaled_similarity A B mt t = Except.error ("Unknown similarity type: " ++ mt) ∧
    align_pair_of_sequences A B mt t
      = Except.error ("Unknown similarity type: " ++ mt) := by
  simp only [List.mem_cons, List.not_mem_nil, or_false, not_or] at h
  obtain ⟨h1, h2, h3, h4, h5⟩ := h
  have hg : get_scaled_similarity A B mt t
      = Except.error ("Unknown similarity type: " ++ mt) := by
    simp [get_scaled_similarity, h1, h2, h3, h4, h5]
  refine ⟨hg, ?_⟩
  unfold align_pair_of_sequences
  rw [hg]
  rfl

/-- Witness for claim C4 at the spec's own example string. -/
theorem unknown_metric_errors_witness :
    get_scaled_similarity [[(0 : ℝ)]] [[0]] "manhattan-typo" 1
      = Except.error ("Unknown similarity type: " ++ "manhattan-typo") ∧
    align_pair_of_sequences [[(0 : ℝ)]] [[0]] "manhattan-typo" 1
      = Except.error ("Unknown similarity type: " ++ "manhattan-typo") :=
  unknown_metric_errors [[(0 : ℝ)]] [[0]] 1 "manhattan-typo" (by decide)

/-- Claim C3 (code bug): the notebook's `l2` branch reads the undefined
global `eps`, so selecting the Euclidean metric raises `NameError`
instead of ever reaching the epsilon-stabilized square root. -/
theorem l2_metric_raises_name_error :
    get_scaled_similarity [[(0 : ℝ), 0]] [[0, 0]] "l2" 1
      = Except.error "NameError: name eps is not defined" := by
  simp [get_scaled_similarity]

/-- Claim C6, amended: whenever `get_scaled_similarity` returns a matrix
at all, that matrix has `rows A` rows, each of length `rows B`.  (The
`l2` metric returns no matrix: its branch fails on the undefined `eps`.) -/
theorem gss_ok_shape (A B : List (List ℝ)) (mt : String) (t : ℝ) (S : List (List ℝ))
    (h : get_scaled_similarity A B mt t = Except.ok S) :
    S.length = A.length ∧ ∀ r ∈ S, r.length = B.length :=
  gss_shape h

/-- Witness for the amended claim C6 on a concrete 1×2 call. -/
theorem gss_ok_shape_witness :
    ([[(0 : ℝ), 0]] : List (List ℝ)).length = ([[(0 : ℝ)]] : List (List ℝ)).length ∧
    ∀ r ∈ ([[(0 : ℝ), 0]] : List (List ℝ)),
      r.length = ([[(0 : ℝ)], [(0 : ℝ)]] : List (List ℝ)).length :=
  gss_ok_shape [[(0 : ℝ)]] [[(0 : ℝ)], [(0 : ℝ)]] "l2sq" 1 [[0, 0]]
    (by simp [get_scaled_similarity, pairwise_l2_distance, sqNorm, dot, matSMul,
      matDivScalar])

/-- Counterexample to claim C6 as stated: for the supported metric `l2`
no similarity matrix is returned at all (the branch fails on the
undefined `eps`), so the returned value is an error, not an m×n matrix. -/
theorem gss_l2_returns_no_matrix :
    get_scaled_similarity [[(1 : ℝ)]] [[1]] "l2" 1
      = Except.error "NameError: name eps is not defined" := by
  simp [get_scaled_similarity]

/-- Claim C2, amended: the code never validates the temperature.  For the
non-cosine metrics whose branch completes (`l2sq`, `l1`, `linf`), a zero
or negative temperature still yields a numeric similarity matrix — the
negated distance is simply divided by that temperature. -/
theorem no_temperature_validation (A B : List (List ℝ)) (t : ℝ) (ht : t ≤ 0) :
    (∃ S, get_scaled_similarity A B "l2sq" t = Except.ok S) ∧
    (∃ S, get_scaled_similarity A B "l1" t = Except.ok S) ∧
    (∃ S, get_scaled_similarity A B "linf" t = Except.ok S) := by
  exact ⟨⟨_, rfl⟩, ⟨_, rfl⟩, ⟨_, rfl⟩⟩

/-- Witness for the amended claim C2 at temperature −1. -/
theorem no_temperature_validation_witness :
    (∃ S, get_scaled_similarity [[(0 : ℝ)]] [[0]] "l2sq" (-1) = Except.ok S) ∧
    (∃ S, get_scaled_similarity [[(0 : ℝ)]] [[0]] "l1" (-1) = Except.ok S) ∧
    (∃ S, get_scaled_similarity [[(0 : ℝ)]] [[0]] "linf" (-1) = Except.ok S) :=
  no_temperature_validation [[(0 : ℝ)]] [[0]] (-1) (neg_nonpos.mpr zero_le_one)

/-- Counterexample to claim C2 as stated: with metric `l2sq` and
temperature −1 the call succeeds and returns the numeric matrix `[[0]]`;
no error of any kind is raised. -/
theorem gss_negative_temperature_ok :
    get_scaled_similarity [[(0 : ℝ)]] [[0]] "l2sq" (-1) = Except.ok [[0]] := by
  norm_num [get_scaled_similarity, pairwise_l2_distance, sqNorm, dot, matSMul,
    matDivScalar]

/-! ### The softmax rows are probability distributions -/

lemma exp_sum_pos (r : List ℝ) (hr : r ≠ []) : 0 < (r.map Real.exp).sum := by
  refine List.sum_pos _ (fun x hx => ?_) (by simpa using hr)
  obtain ⟨y, -, rfl⟩ := List.mem_map.1 hx
  exact Real.exp_pos y

lemma softmaxRow_entries (r : List ℝ) (hr : r ≠ []) :
    ∀ p ∈ softmaxRow r, 0 ≤ p ∧ p ≤ 1 := by
  intro p hp
  obtain ⟨x, hx, rfl⟩ := List.mem_map.1 hp
  have hT := exp_sum_pos r hr
  constructor
  · exact div_nonneg (Real.exp_pos x).le hT.le
  · rw [div_le_one hT]
    exact List.single_le_sum (fun z hz => by
      obtain ⟨y, -, rfl⟩ := List.mem_map.1 hz; exact (Real.exp_pos y).le) _
      (List.mem_map_of_mem Real.exp hx)

lemma softmaxRow_sum (r : List ℝ) (hr : r ≠ []) : (softmaxRow r).sum = 1 := by
  unfold softmaxRow
  rw [sum_map_div' r Real.exp ((r.map Real.exp).sum)]
  exact div_self (exp_sum_pos r hr).ne'

/-- Claim C7, amended: for every similarity matrix actually returned,
provided the target stack `E2` is nonempty, the row-softmaxed soft
assignment matrix is row-stochastic — every entry lies in `[0, 1]` and
every row sums to 1 within the spec's `1e-5` tolerance. -/
theorem softmax_rows_stochastic (E1 E2 : List (List ℝ)) (mt : String) (t : ℝ)
    (S : List (List ℝ)) (hn : 0 < E2.length)
    (h : get_scaled_similarity E1 E2 mt t = Except.ok S) :
    ∀ r ∈ softmaxRows S, (∀ p ∈ r, 0 ≤ p ∧ p ≤ 1) ∧ |r.sum - 1| ≤ 1e-5 := by
  intro r hr
  obtain ⟨s, hs, rfl⟩ := List.mem_map.1 hr
  have hlen : s.length = E2.length := (gss_shape h).2 s hs
  have hne : s ≠ [] := by
    intro hnil
    rw [hnil] at hlen
    simp at hlen
    omega
  refine ⟨softmaxRow_entries s hne, ?_⟩
  rw [softmaxRow_sum s hne]
  norm_num

/-- Witness for the amended claim C7 on a concrete 1×1 call: the single
softmax row of the returned similarity matrix sums to 1 within 1e-5. -/
theorem softmax_rows_stochastic_witness :
    |(softmaxRow [(0 : ℝ)]).sum - 1| ≤ 1e-5 :=
  (softmax_rows_stochastic [[(0 : ℝ)]] [[(0 : ℝ)]] "l2sq" 1 [[0]] (by decide)
    (by norm_num [get_scaled_similarity, pairwise_l2_distance, sqNorm, dot, matSMul,
      matDivScalar])
    (softmaxRow [(0 : ℝ)]) (by simp [softmaxRows])).2

/-- Counterexample to claim C7 as stated: with an empty target stack the
code still returns a similarity matrix (one empty row), and the softmax
of an empty row sums to 0, not to 1 ± 1e-5. -/
theorem softmax_empty_target_not_stochastic :
    get_scaled_similarity [[(0 : ℝ)]] ([] : List (List ℝ)) "l2sq" 1
        = Except.ok [[]] ∧
    ¬ (∀ r ∈ softmaxRows [[]], |r.sum - 1| ≤ 1e-5) := by
  constructor
  · simp [get_scaled_similarity, pairwise_l2_distance, matSMul, matDivScalar]
  · intro hc
    have := hc [] (by simp [softmaxRows, softmaxRow])
    norm_num at this

/-! ### Cosine similarity of a matrix with itself -/

lemma sqNorm_nonneg (v : List ℝ) : 0 ≤ sqNorm v := by
  refine List.sum_nonneg fun x hx => ?_
  obtain ⟨y, -, rfl⟩ := List.mem_map.1 hx
  positivity

lemma dot_l2normalize_self (v : List ℝ) (hv : sqNorm v ≠ 0) :
    dot (l2normalize v) (l2normalize v) = 1 := by
  have hs : Real.sqrt (sqNorm v) * Real.sqrt (sqNorm v) = sqNorm v :=
    Real.mul_self_sqrt (sqNorm_nonneg v)
  unfold dot l2normalize
  rw [List.zipWith_same, List.map_map]
  have hfun : ((fun a => a * a) ∘ fun x => x / Real.sqrt (sqNorm v))
      = fun x : ℝ => x * x / sqNorm v := by
    funext x
    simp only [Function.comp_apply]
    rw [div_mul_div_comm, hs]
  rw [hfun, sum_map_div' v (fun x => x * x) (sqNorm v)]
  have hsq : (v.map fun x => x * x).sum = sqNorm v := by
    simp [sqNorm, pow_two]
  rw [hsq]
  exact div_self hv

/-- Claim C9: for every matrix `A` whose rows all have nonzero squared
norm and every positive temperature `t`, the cosine scaled similarity of
`A` with itself has every diagonal entry equal to `1 / t`. -/
theorem cosine_diagonal_inv_temperature (A : List (List ℝ)) (t : ℝ) (ht : 0 < t)
    (hA : ∀ r ∈ A, sqNorm r ≠ 0) (i : ℕ) (hi : i < A.length) (S : List (List ℝ))
    (h : get_scaled_similarity A A "cosine" t = Except.ok S) :
    entry S i i = 1 / t := by
  have hS : S = A.map fun x => A.map fun y => dot (l2normalize x) (l2normalize y) / t := by
    have hbranch : get_scaled_similarity A A "cosine" t
        = Except.ok (matDivScalar (matmulT (A.map l2normalize) (A.map l2normalize)) t) := by
      simp [get_scaled_similarity]
    rw [hbranch] at h
    rw [cosine_rows] at h
    exact (Except.ok.inj h).symm
  rw [hS]
  unfold entry
  rw [map_getD_of_lt A _ i [] hi, map_getD_of_lt A _ i 0 hi,
    dot_l2normalize_self _ (hA _ (A.get_mem i hi))]

/-- Witness for claim C9 on the 1×1 matrix `[[1]]` at temperature 1. -/
theorem cosine_diagonal_inv_temperature_witness :
    entry (matDivScalar
      (matmulT ([[(1 : ℝ)]].map l2normalize) ([[(1 : ℝ)]].map l2normalize)) 1) 0 0
      = 1 / 1 :=
  cosine_diagonal_inv_temperature [[(1 : ℝ)]] 1 one_pos
    (by simp [sqNorm]) 0 (by simp) _ rfl

/-! ### The cycle-consistency loss is nonnegative, but not zero -/

lemma sce_nonneg (r : List ℝ) (i : ℕ) (hi : i < r.length) :
    0 ≤ sparse_categorical_crossentropy i r := by
  unfold sparse_categorical_crossentropy
  rw [getD_of_lt r i 0 hi]
  have hmem : Real.exp (r.get ⟨i, hi⟩) ∈ r.map Real.exp :=
    List.mem_map_of_mem Real.exp (r.get_mem i hi)
  have hle : Real.exp (r.get ⟨i, hi⟩) ≤ (r.map Real.exp).sum :=
    List.single_le_sum (fun x hx => by
      obtain ⟨y, -, rfl⟩ := List.mem_map.1 hx; exact (Real.exp_pos y).le) _ hmem
  have hlog := Real.log_le_log (Real.exp_pos _) hle
  rw [Real.log_exp] at hlog
  linarith

lemma softmaxRows_length (M : List (List ℝ)) : (softmaxRows M).length = M.length := by
  simp [softmaxRows]

lemma matmul_length (A B : List (List ℝ)) : (matmul A B).length = A.length := by
  simp [matmul]

lemma align_ok_inv {E1 E2 : List (List ℝ)} {mt : String} {t : ℝ} {L : ℝ}
    (h : align_pair_of_sequences E1 E2 mt t = Except.ok L) :
    ∃ s12 s21, get_scaled_similarity E1 E2 mt t = Except.ok s12 ∧
      get_scaled_similarity (matmul (softmaxRows s12) E2) E1 mt t = Except.ok s21 ∧
      L = reduce_mean ((List.range E1.length).map fun i =>
        sparse_categorical_crossentropy i (s21.getD i [])) := by
  unfold align_pair_of_sequences at h
  cases h1 : get_scaled_similarity E1 E2 mt t with
  | error e => rw [h1, ebind_error] at h; simp at h
  | ok s12 =>
    rw [h1, ebind_ok] at h
    cases h2 : get_scaled_similarity (matmul (softmaxRows s12) E2) E1 mt t with
    | error e => rw [h2, ebind_error] at h; simp at h
    | ok s21 =>
      rw [h2, ebind_ok] at h
      simp only [Except.ok.injEq] at h
      exact ⟨s12, s21, rfl, h2, h.symm⟩

/-- Claim C5, amended: when `E1 == E2` exactly the returned
cycle-consistency loss is nonnegative, but it need not equal 0 — with
duplicated rows the soft assignment is spread and the loss is strictly
positive (`log 2` in the counterexample); it is only approximately 0 for
well-separated rows. -/
theorem align_self_nonneg (E1 : List (List ℝ)) (mt : String) (t : ℝ) (L : ℝ)
    (h : align_pair_of_sequences E1 E1 mt t = Except.ok L) : 0 ≤ L := by
  obtain ⟨s12, s21, h1, h2, rfl⟩ := align_ok_inv h
  unfold reduce_mean
  apply div_nonneg _ (Nat.cast_nonneg _)
  apply List.sum_nonneg
  intro x hx
  obtain ⟨i, hi, rfl⟩ := List.mem_map.1 hx
  have hiR : i < E1.length := List.mem_range.1 hi
  have hlen21 : s21.length = E1.length := by
    have hl := (gss_shape h2).1
    rw [matmul_length, softmaxRows_length, (gss_shape h1).1] at hl
    exact hl
  have hrow : s21.getD i [] ∈ s21 := by
    rw [getD_of_lt s21 i [] (by omega)]
    exact s21.get_mem _ _
  have hrlen : (s21.getD i []).length = E1.length := (gss_shape h2).2 _ hrow
  exact sce_nonneg _ i (by omega)

/-- Witness for the amended claim C5: a 1×1 identical pair has loss 0,
which is nonnegative. -/
theorem align_self_nonneg_witness : (0 : ℝ) ≤ 0 :=
  align_self_nonneg [[(0 : ℝ)]] "l2sq" 1 0
    (by norm_num [align_pair_of_sequences, get_scaled_similarity,
      pairwise_l2_distance, sqNorm, dot, matSMul, matDivScalar, softmaxRows,
      softmaxRow, matmul, sparse_categorical_crossentropy, reduce_mean,
      ebind_ok, ebind_error, max_self, Real.exp_zero, Real.log_one,
      List.range_succ])

/-- Counterexample to claim C5 as stated: for `E1 = E2 = [[0], [0]]`
(identical matrices with duplicate rows), metric `l2sq`, temperature 1,
the loss returned is `log 2 ≈ 0.693`, not 0. -/
theorem align_identical_rows_log_two :
    align_pair_of_sequences [[(0 : ℝ)], [0]] [[(0 : ℝ)], [0]] "l2sq" 1
        = Except.ok (Real.log 2) ∧ Real.log 2 ≠ 0 := by
  constructor
  · norm_num [align_pair_of_sequences, get_scaled_similarity,
      pairwise_l2_distance, sqNorm, dot, matSMul, matDivScalar, softmaxRows,
      softmaxRow, matmul, sparse_categorical_crossentropy, reduce_mean,
      ebind_ok, ebind_error, max_self, Real.exp_zero, List.range_succ]
  · exact (Real.log_pos (by norm_num)).ne'

/-! ### The code's log-sum-exp loss equals the spec's cross-entropy -/

lemma sce_eq_ceSpec (r : List ℝ) (i : ℕ) (hi : i < r.length) :
    sparse_categorical_crossentropy i r = ceLogitsSpec i r := by
  unfold sparse_categorical_crossentropy ceLogitsSpec softmaxRow
  have hne : r ≠ [] := List.ne_nil_of_length_pos (by omega)
  have hT := exp_sum_pos r hne
  rw [map_getD_of_lt r _ i 0 hi, getD_of_lt r i 0 hi,
    Real.log_div (Real.exp_ne_zero _) hT.ne', Real.log_exp]
  ring

/-- Claim C1: `align_pair_of_sequences` coincides with the spec's
reference computation (`alignPairSpec`): scaled similarity `S12`, row
softmax `P`, soft nearest neighbors `NN = P · E2`, scaled similarity
`S21`, then the mean over `i` of the categorical cross-entropy between
`S21`'s row `i` as logits and the label `i`. -/
theorem align_pair_refines_spec (E1 E2 : List (List ℝ)) (mt : String) (t : ℝ)
    (hm : 0 < E1.length) (ht : 0 < t) :
    align_pair_of_sequences E1 E2 mt t = alignPairSpec E1 E2 mt t := by
  unfold align_pair_of_sequences alignPairSpec
  cases h1 : get_scaled_similarity E1 E2 mt t with
  | error e => rfl
  | ok s12 =>
    rw [ebind_ok, ebind_ok]
    cases h2 : get_scaled_similarity (matmul (softmaxRows s12) E2) E1 mt t with
    | error e => rfl
    | ok s21 =>
      rw [ebind_ok, ebind_ok]
      have hlen21 : s21.length = E1.length := by
        have hl := (gss_shape h2).1
        rw [matmul_length, softmaxRows_length, (gss_shape h1).1] at hl
        exact hl
      have hmap : (List.range E1.length).map
            (fun i => sparse_categorical_crossentropy i (s21.getD i []))
          = (List.range E1.length).map fun i => ceLogitsSpec i (s21.getD i []) := by
        apply List.map_congr_left
        intro i hi
        have hiR : i < E1.length := List.mem_range.1 hi
        have hrow : s21.getD i [] ∈ s21 := by
          rw [getD_of_lt s21 i [] (by omega)]
          exact s21.get_mem _ _
        have hrlen : (s21.getD i []).length = E1.length := (gss_shape h2).2 _ hrow
        exact sce_eq_ceSpec _ i (by omega)
      rw [hmap]

/-- Witness for claim C1 on a concrete 1×1 pair. -/
theorem align_pair_refines_spec_witness :
    align_pair_of_sequences [[(0 : ℝ)]] [[(0 : ℝ)]] "l2sq" 1
      = alignPairSpec [[(0 : ℝ)]] [[(0 : ℝ)]] "l2sq" 1 :=
  align_pair_refines_spec [[(0 : ℝ)]] [[(0 : ℝ)]] "l2sq" 1 (by simp) one_pos

/-! ### Permutation invariance in the second argument -/

lemma gss_unknown_eq (A B : List (List ℝ)) (t : ℝ) (mt : String)
    (h1 : mt ≠ "l2sq") (h2 : mt ≠ "l2") (h3 : mt ≠ "l1") (h4 : mt ≠ "linf")
    (h5 : mt ≠ "cosine") :
    get_scaled_similarity A B mt t = Except.error ("Unknown similarity type: " ++ mt) := by
  simp [get_scaled_similarity, h1, h2, h3, h4, h5]

lemma gss_l2_eq (A B : List (List ℝ)) (t : ℝ) :
    get_scaled_similarity A B "l2" t
      = Except.error "NameError: name eps is not defined" := by
  simp [get_scaled_similarity]

lemma gss_l2sq_rows (A B : List (List ℝ)) (t : ℝ) :
    get_scaled_similarity A B "l2sq" t
      = Except.ok (A.map fun x => B.map fun y =>
          -1 * max (sqNorm x + sqNorm y - 2 * dot x y) 0 / t) := by
  have hb : get_scaled_similarity A B "l2sq" t
      = Except.ok (matDivScalar (matSMul (-1) (pairwise_l2_distance A B)) t) := by
    simp [get_scaled_similarity]
  rw [hb]
  unfold pairwise_l2_distance
  rw [scaled_rows (-1) t (fun x y => max (sqNorm x + sqNorm y - 2 * dot x y) 0) A B]

lemma gss_l1_rows (A B : List (List ℝ)) (t : ℝ) :
    get_scaled_similarity A B "l1" t
      = Except.ok (A.map fun x => B.map fun y =>
          -1 * (List.zipWith (fun a b => |a - b|) x y).sum / t) := by
  have hb : get_scaled_similarity A B "l1" t
      = Except.ok (matDivScalar (matSMul (-1) (pairwise_l1_distance A B)) t) := by
    simp [get_scaled_similarity]
  rw [hb]
  unfold pairwise_l1_distance
  rw [scaled_rows (-1) t (fun x y => (List.zipWith (fun a b => |a - b|) x y).sum) A B]

lemma gss_linf_rows (A B : List (List ℝ)) (t : ℝ) :
    get_scaled_similarity A B "linf" t
      = Except.ok (A.map fun x => B.map fun y =>
          -1 * reduceMax (List.zipWith (fun a b => |a - b|) x y) / t) := by
  have hb : get_scaled_similarity A B "linf" t
      = Except.ok (matDivScalar (matSMul (-1) (pairwise_linf_distance A B)) t) := by
    simp [get_scaled_similarity]
  rw [hb]
  unfold pairwise_linf_distance
  rw [scaled_rows (-1) t (fun x y => reduceMax (List.zipWith (fun a b => |a - b|) x y)) A B]

lemma gss_cosine_rows (A B : List (List ℝ)) (t : ℝ) :
    get_scaled_similarity A B "cosine" t
      = Except.ok (A.map fun x => B.map fun y =>
          dot (l2normalize x) (l2normalize y) / t) := by
  have hb : get_scaled_similarity A B "cosine" t
      = Except.ok (matDivScalar
          (matmulT (A.map l2normalize) (B.map l2normalize)) t) := by
    simp [get_scaled_similarity]
  rw [hb, cosine_rows]

lemma matmul_row_as_map (B : List (List ℝ)) (g : List ℝ → ℝ) (k : ℕ) :
    ((List.range B.length).map fun j => (B.map g).getD j 0 * (B.getD j []).getD k 0)
      = B.map fun b => g b * b.getD k 0 := by
  apply List.ext_getElem (by simp)
  intro j hj1 hj2
  have hjB : j < B.length := by simpa using hj2
  rw [List.getElem_map, List.getElem_map, List.getElem_range,
    map_getD_of_lt B g j 0 hjB, getD_of_lt B j [] hjB]
  simp

lemma softmaxRow_of_map (D : List (List ℝ)) (f : List ℝ → ℝ) :
    softmaxRow (D.map f)
      = D.map fun b => Real.exp (f b) / ((D.map f).map Real.exp).sum := by
  unfold softmaxRow
  rw [List.map_map]
  simp [Function.comp_def]

/-- Permuting the rows of the second stack permutes the softmax weights
and the convex-combination terms in lockstep, so the soft
nearest-neighbor matrix is unchanged. -/
lemma matmul_softmax_perm (s : List ℝ → List ℝ → ℝ) (E1 B C : List (List ℝ)) (d : ℕ)
    (hp : C.Perm B) (hd : ∀ r ∈ B, r.length = d) :
    matmul (softmaxRows (E1.map fun x => C.map fun y => s x y)) C
      = matmul (softmaxRows (E1.map fun x => B.map fun y => s x y)) B := by
  rcases eq_or_ne B [] with rfl | hBne
  · rw [hp.eq_nil]
  · have hCne : C ≠ [] := by
      intro h0
      exact hBne (hp.symm.trans (h0 ▸ List.Perm.refl C)).eq_nil
    have hheadB : (B.headD []).length = d := by
      cases B with
      | nil => exact absurd rfl hBne
      | cons b bs => exact hd b (List.mem_cons_self b bs)
    have hheadC : (C.headD []).length = d := by
      cases C with
      | nil => exact absurd rfl hCne
      | cons c cs => exact hd c (hp.mem_iff.mp (List.mem_cons_self c cs))
    unfold matmul softmaxRows
    simp only [List.map_map]
    apply List.map_congr_left
    rintro x -
    simp only [Function.comp_apply]
    rw [hheadC, hheadB]
    apply List.map_congr_left
    rintro k -
    have hT : ((C.map fun y => s x y).map Real.exp).sum
        = ((B.map fun y => s x y).map Real.exp).sum :=
      ((hp.map fun y => s x y).map Real.exp).sum_eq
    rw [softmaxRow_of_map C (fun y => s x y), softmaxRow_of_map B (fun y => s x y), hT]
    rw [matmul_row_as_map B _ k, matmul_row_as_map C _ k]
    exact (hp.map fun b =>
      Real.exp (s x b) / ((B.map fun y => s x y).map Real.exp).sum * b.getD k 0).sum_eq

/-- Claim C10: permuting the rows of the second stack leaves
`align_pair_of_sequences` unchanged — the loss treats `E2` as an
unordered set.  (Proved for every metric string: for the failing `l2`
branch and for unknown metrics both sides raise the identical error.) -/
theorem align_permutation_invariant (E1 E2 E2p : List (List ℝ)) (mt : String)
    (t : ℝ) (d : ℕ) (ht : 0 < t) (hp : E2p.Perm E2) (hd : ∀ r ∈ E2, r.length = d) :
    align_pair_of_sequences E1 E2p mt t = align_pair_of_sequences E1 E2 mt t := by
  unfold align_pair_of_sequences
  by_cases h1 : mt = "l2sq"
  · subst h1
    rw [gss_l2sq_rows E1 E2p t, gss_l2sq_rows E1 E2 t, ebind_ok, ebind_ok,
      matmul_softmax_perm
        (fun x y => -1 * max (sqNorm x + sqNorm y - 2 * dot x y) 0 / t) E1 E2 E2p d hp hd]
  · by_cases h2 : mt = "l2"
    · subst h2
      rw [gss_l2_eq E1 E2p t, gss_l2_eq E1 E2 t, ebind_error, ebind_error]
    · by_cases h3 : mt = "l1"
      · subst h3
        rw [gss_l1_rows E1 E2p t, gss_l1_rows E1 E2 t, ebind_ok, ebind_ok,
          matmul_softmax_perm
            (fun x y => -1 * (List.zipWith (fun a b => |a - b|) x y).sum / t) E1 E2 E2p d hp hd]
      · by_cases h4 : mt = "linf"
        · subst h4
          rw [gss_linf_rows E1 E2p t, gss_linf_rows E1 E2 t, ebind_ok, ebind_ok,
            matmul_softmax_perm
              (fun x y => -1 * reduceMax (List.zipWith (fun a b => |a - b|) x y) / t)
              E1 E2 E2p d hp hd]
        · by_cases h5 : mt = "cosine"
          · subst h5
            rw [gss_cosine_rows E1 E2p t, gss_cosine_rows E1 E2 t, ebind_ok, ebind_ok,
              matmul_softmax_perm
                (fun x y => dot (l2normalize x) (l2normalize y) / t) E1 E2 E2p d hp hd]
          · rw [gss_unknown_eq E1 E2p t mt h1 h2 h3 h4 h5,
              gss_unknown_eq E1 E2 t mt h1 h2 h3 h4 h5, ebind_error, ebind_error]

/-- Witness for claim C10: swapping the two rows of `E2` leaves the loss
term unchanged. -/
theorem align_permutation_invariant_witness :
    align_pair_of_sequences [[(0 : ℝ)]] [[(1 : ℝ)], [(0 : ℝ)]] "l2sq" 1
      = align_pair_of_sequences [[(0 : ℝ)]] [[(0 : ℝ)], [(1 : ℝ)]] "l2sq" 1 :=
  align_permutation_invariant [[(0 : ℝ)]] [[(0 : ℝ)], [(1 : ℝ)]] [[(1 : ℝ)], [(0 : ℝ)]]
    "l2sq" 1 1 one_pos (List.Perm.swap [(0 : ℝ)] [(1 : ℝ)] []) (by simp)

end

